import Mathlib

/-!
Verification of MediaWarp core components against their specification.

MediaWarp is a reverse-proxy middleware in front of media servers (Emby,
Jellyfin, FNTV).  This file gives a shallow embedding, in Lean 4, of the
pieces of the Go sources relevant to the properties under scrutiny:

* the cache-key computation of the cache middleware
  (`internal/middleware/cache.go`, function `getCacheKey`);
* the cache middleware body (`getCacheBaseFunc`, `ImageCache`);
* the Alist client request pipeline (`internal/service/alist/alist.go`,
  functions `doRequest` and `getToken`);
* the STRM resolvers (`internal/handler/strm.go`);
* the response rewriters (`internal/handler/emby.go`, `jellyfin.go`,
  `fntv.go`) and the Emby/Jellyfin videos handlers.

Pure functions of the Go code become Lean functions; byte strings become
`String` (equality of Lean strings coincides with equality of their UTF-8
bytes); instants become integer seconds; outbound I/O (HTTP calls, the
upstream item query, JSON (un)marshalling by `encoding/json`/`gjson`)
is passed in as explicit oracle arguments so that the control flow of the
Go source is reproduced verbatim.  Fallible Go code returns `Except`/
`Option`; a Go panic (out-of-range index) is an explicit `none`/dedicated
constructor.
-/

namespace MediaWarp

/-! ## Cache key (internal/middleware/cache.go, `getCacheKey`)

Go source:
```
var CacheKeyIgnoreQuery = []string{"api_key", "starttimeticks",
  "x-playback-session-id", "playsessionid", "tag"}

func getCacheKey(ctx *gin.Context) string {
  path  := ctx.Request.URL.Path
  query := ctx.Request.URL.Query()
  for _, key := range CacheKeyIgnoreQuery { query.Del(key) }
  for key, values := range query { sort.Strings(values); query[key] = values }
  return path + query.Encode()
}
```
The parsed query `url.Values` is modelled as the list of (key, value)
pairs in the order they appear in the query string; `url.Values` maps a
key to its values in order of appearance, `Encode` iterates the keys in
sorted order and percent-escapes keys and values with `QueryEscape`.
-/

def CacheKeyIgnoreQuery : List String :=
  ["api_key", "starttimeticks", "x-playback-session-id", "playsessionid", "tag"]

/-- Uppercase hexadecimal digit, as used by Go `net/url` escaping. -/
def hexDigitUpper (n : Nat) : Char :=
  if n < 10 then Char.ofNat (48 + n) else Char.ofNat (55 + n)

/-- Go `net/url` `shouldEscape(c, encodeQueryComponent)`: every byte is
escaped except ASCII letters, digits and `-` `_` `.` `~`. -/
def shouldEscapeByte (b : UInt8) : Bool :=
  !((65 ≤ b.toNat && b.toNat ≤ 90) || (97 ≤ b.toNat && b.toNat ≤ 122) ||
    (48 ≤ b.toNat && b.toNat ≤ 57) ||
    b.toNat == 45 || b.toNat == 95 || b.toNat == 46 || b.toNat == 126)

/-- One byte of Go `url.QueryEscape` output: space becomes `+`, escaped
bytes become `%XX`, the rest pass through. -/
def escapeByte (b : UInt8) : String :=
  if b.toNat == 32 then "+"
  else if shouldEscapeByte b then
    String.mk ['%', hexDigitUpper (b.toNat / 16), hexDigitUpper (b.toNat % 16)]
  else String.mk [Char.ofNat b.toNat]

/-- Go `url.QueryEscape`, applied to the UTF-8 bytes of the string. -/
def queryEscape (s : String) : String :=
  String.join (s.toUTF8.toList.map escapeByte)

/-- The value list `url.Values[k]`: the values of key `k` in order of
appearance in the parsed query. -/
def valuesOf (q : List (String × String)) (k : String) : List String :=
  (q.filter (fun p => p.1 == k)).map (fun p => p.2)

/-- Go `sort.Strings` (the sorted result is unique, so any sorting
algorithm embeds it). -/
def sortStrings (l : List String) : List String :=
  l.insertionSort (· ≤ ·)

/-- Go `url.Values.Encode` after the value lists have been sorted by the
caller: keys in sorted order, each `k=v` pair escaped and joined by `&`. -/
def encodeQuery (q : List (String × String)) : String :=
  String.intercalate "&"
    ((sortStrings (q.map (fun p => p.1)).dedup).map (fun k =>
      String.intercalate "&"
        ((sortStrings (valuesOf q k)).map
          (fun v => queryEscape k ++ "=" ++ queryEscape v))))

/-- `getCacheKey` of `internal/middleware/cache.go`: drop the ignored
keys (`url.Values.Del` for each entry of `CacheKeyIgnoreQuery`), sort
every value list, and append the canonical encoding to the path. -/
def getCacheKey (path : String) (query : List (String × String)) : String :=
  path ++ encodeQuery (query.filter (fun p => !(CacheKeyIgnoreQuery.contains p.1)))

/-! ## Cache middleware (internal/middleware/cache.go, `getCacheBaseFunc`,
and the wrappers `ImageCache`/`SubtitleCache` of image.go/subtitle.go)

The serialized `CacheData` envelope (`cacheData.Json()` /
`ParseCacheData`, a JSON round-trip through `encoding/json` of the
middleware's own struct) is modelled by storing the `CacheData` value
itself in the cache.  The downstream chain (`ctx.Next()` through the
capturing `WriterWarp`) is modelled by the status, header and body it
would write. -/

structure CacheData where
  statusCode : Nat
  header : List (String × String)
  body : String
deriving DecidableEq

/-- Go `http.Header.Get` / gin `Writer.Header().Get` on the recorded
response headers (first value for the key, empty string when absent). -/
def headerGet (hs : List (String × String)) (k : String) : String :=
  match hs.find? (fun p => p.1 == k) with
  | some p => p.2
  | none => ""

/-- The whitelisted-header extraction of `getCacheBaseFunc` (cache.go
lines 200-216): keep Content-Type, Content-Length, Cache-Control, ETag
and Content-Disposition, each only when non-empty. -/
def whitelistHeaders (hs : List (String × String)) : List (String × String) :=
  (if headerGet hs "Content-Type" ≠ "" then
    [("Content-Type", headerGet hs "Content-Type")] else []) ++
  (if headerGet hs "Content-Length" ≠ "" then
    [("Content-Length", headerGet hs "Content-Length")] else []) ++
  (if headerGet hs "Cache-Control" ≠ "" then
    [("Cache-Control", headerGet hs "Cache-Control")] else []) ++
  (if headerGet hs "ETag" ≠ "" then
    [("ETag", headerGet hs "ETag")] else []) ++
  (if headerGet hs "Content-Disposition" ≠ "" then
    [("Content-Disposition", headerGet hs "Content-Disposition")] else [])

/-- `const maxCacheSize = 256 * 1024` (cache.go line 194). -/
def maxCacheSize : Nat := 256 * 1024

def lookupCache (cache : List (String × CacheData)) (k : String) : Option CacheData :=
  (cache.find? (fun p => p.1 == k)).map (fun p => p.2)

/-- Outcome of one pass of the cache middleware for a single request:
whether the cache was consulted, whether the response was served from the
cache (short-circuiting the chain), and the entry written back, if any. -/
structure MwOutcome where
  consulted : Bool
  servedFromCache : Bool
  stored : Option CacheData
deriving DecidableEq

/-- `getCacheBaseFunc` (cache.go lines 166-236): consult the cache at the
computed key and serve a hit; on a miss run the chain through the
capturing writer and, when the status is 2xx and the captured body is at
most 256 KiB, store the whitelisted-header entry. -/
def getCacheBaseFunc (cache : List (String × CacheData)) (path : String)
    (query : List (String × String)) (dsStatus : Nat)
    (dsHeader : List (String × String)) (dsBody : String) : MwOutcome :=
  match lookupCache cache (getCacheKey path query) with
  | some _ => ⟨true, true, none⟩
  | none =>
    if 200 ≤ dsStatus ∧ dsStatus < 300 then
      if maxCacheSize < dsBody.utf8ByteSize then ⟨true, false, none⟩
      else ⟨true, false, some ⟨dsStatus, whitelistHeaders dsHeader, dsBody⟩⟩
    else ⟨true, false, none⟩

/-- The `ImageCache`/`SubtitleCache` wrapper (image.go/subtitle.go): a
request whose method is not GET, or whose path does not match the bound
regex, goes straight to `ctx.Next()` without touching the cache. -/
def cacheMiddleware (regMatch : String → Bool) (cache : List (String × CacheData))
    (method path : String) (query : List (String × String)) (dsStatus : Nat)
    (dsHeader : List (String × String)) (dsBody : String) : MwOutcome :=
  if method ≠ "GET" ∨ regMatch path = false then ⟨false, false, none⟩
  else getCacheBaseFunc cache path query dsStatus dsHeader dsBody

/-! ## Alist client (internal/service/alist/alist.go)

`doRequest[T]` is embedded with its I/O passed in as oracles:
`parse` stands for `json.Unmarshal` into `AlistResponse[T]`, `tokenRes`
for the outcome of `client.getToken()`, `httpRes` for
`client.client.Do` plus `io.ReadAll` (HTTP status and raw body bytes),
and `setOk` for the outcome of `client.cache.Set`.  The per-client
response cache maps cache keys to the raw body bytes that were stored. -/

structure AlistEnvelope (T : Type) where
  code : Int
  message : String
  data : T
deriving DecidableEq

def lookupRaw (c : List (String × String)) (k : String) : Option String :=
  (c.find? (fun p => p.1 == k)).map (fun p => p.2)

/-- The cache-consult prefix of `doRequest` (alist.go lines 115-122):
when the request has a cache key and the client has a cache, a stored
body that unmarshals returns its `Data` immediately (note: with no check
of the stored envelope's `code`). -/
def doRequestCacheHit {T : Type} (parse : String → Option (AlistEnvelope T))
    (cacheKey : String) (cache : Option (List (String × String))) : Option T :=
  if cacheKey ≠ "" then
    match cache with
    | some c =>
      match lookupRaw c cacheKey with
      | some data => (parse data).map (fun env => env.data)
      | none => none
    | none => none
  else none

/-- `doRequest[T]` (alist.go lines 113-163).  Returns the outcome paired
with the final per-client cache state. -/
def doRequest {T : Type} (parse : String → Option (AlistEnvelope T))
    (cacheKey : String) (cache : Option (List (String × String)))
    (needAuth : Bool) (tokenRes : Except String String)
    (httpRes : Except String (Nat × String)) (setOk : Bool) :
    Except String T × Option (List (String × String)) :=
  match doRequestCacheHit parse cacheKey cache with
  | some d => (.ok d, cache)
  | none =>
    match (if needAuth then tokenRes else .ok "") with
    | .error e => (.error e, cache)
    | .ok _ =>
      match httpRes with
      | .error e => (.error ("请求失败: " ++ e), cache)
      | .ok (_status, data) =>
        match parse data with
        | none => (.error "解析响应体失败", cache)
        | some env =>
          if env.code ≠ 200 then
            (.error ("请求失败，响应状态码: " ++ toString env.code ++
              ", 响应信息: " ++ env.message), cache)
          else
            if cacheKey ≠ "" then
              match cache with
              | some c =>
                if setOk then (.ok env.data, some ((cacheKey, data) :: c))
                else (.error "缓存响应体失败", cache)
              | none => (.ok env.data, none)
            else (.ok env.data, cache)

/-! ## HTTP STRM resolver (internal/handler/strm.go, `getHTTPStrmHandler`)

The returned closure is embedded as `httpStrmResolve`.  `fetch` stands
for `getFinalURL(client, content, ua)`.

Modelled from the spec: `getFinalURL` itself is absent from src/ (only
its caller is present).  Per the spec it issues a GET with redirects
disabled and reads the `Location` header (or the last hop); on failure it
returns an error, and as a Go `(string, error)` function its string
result on the failure path is the zero value `""`.  The oracle therefore
yields `Except`, and the caller (present in src/, lines 39-67) binds
`finalURL` to `""` when the oracle fails. -/
def httpStrmResolve (finalURLEnabled : Bool) (cache : Option (List (String × String)))
    (fetch : String → String → Except String String) (content ua : String) :
    String × Option (List (String × String)) :=
  if finalURLEnabled then
    match (match cache with
           | some c => lookupRaw c content
           | none => none) with
    | some cachedURL => (cachedURL, cache)
    | none =>
      let finalURL := match fetch content ua with
        | .ok u => u
        | .error _ => ""
      match cache with
      | some c => (finalURL, some ((content, finalURL) :: c))
      | none => (finalURL, cache)
  else (content, cache)

/-! ## Response rewriters and videos handlers (internal/handler)

Shared data model, following the upstream JSON contracts the handlers
decode into (`emby.PlaybackInfoResponse`, `jellyfin.PlaybackInfoResponse`
and the `Items` query response; pointer fields that the handlers always
dereference are plain fields here).

The STRM recognizer `recgonizeStrmFileType` and the per-kind rewrite
helpers `processHTTPStrmPlaybackInfo` / `processAlistStrmPlaybackInfo`
live in handler files absent from src/; they are passed in as oracles
(`classify`, `procHTTP`, `procAlist`).  `classify` returns the
`StrmKind` together with its option payload (the Alist endpoint).

The in-place JSON editor `utils.JsonChain` is likewise absent from src/;
it is modelled as the original byte buffer plus the ordered list of
pending dotted-path `Set` operations, with `Result()` given by
`chainResult` below. -/

inductive StrmClass
  | http
  | alist (addr : String)
  | unknown
deriving DecidableEq

inductive JsonVal
  | str (s : String)
  | int (n : Int)
  | bool (b : Bool)
deriving DecidableEq

/-- One pending `jsonChain.Set(path, value)` operation. -/
abbrev SetOp : Type := String × JsonVal

structure MediaSource where
  id : String
  itemId : String
  path : String
  protocol : String
  size : Int
deriving DecidableEq

structure EmbyItem where
  path : String
  mediaSources : List MediaSource
deriving DecidableEq

structure ItemsResponse where
  items : List EmbyItem
deriving DecidableEq

structure PlaybackInfoResponse where
  mediaSources : List MediaSource
deriving DecidableEq

/-- Remove the first occurrence of `pat` in a character list. -/
def removeFirstAux (pat : List Char) : List Char → List Char
  | [] => []
  | c :: rest =>
    if pat.isPrefixOf (c :: rest) then (c :: rest).drop pat.length
    else c :: removeFirstAux pat rest

/-- Go `strings.Replace(s, pat, "", 1)`: remove the first occurrence of
`pat` from `s` (strings are compared by their characters; `pat` is the
literal `"mediasource_"` at every call site). -/
def replaceFirst (s pat : String) : String :=
  if pat = "" then s else String.mk (removeFirstAux pat.data s.data)

/-- Modelled from the spec (§4.3, the JSON chain editor of
`utils.JsonChain`, absent from src/): a chain with no pending `Set`
operations materializes the buffer unchanged; with pending sets the
outcome is supplied by the `applySets` oracle (`none` = `Result()`
error). -/
def chainResult (original : String) (ops : List SetOp)
    (applySets : String → List SetOp → Option String) : Option String :=
  match ops with
  | [] => some original
  | _ => applySets original ops

/-- Result of a response rewriter (`ModifyResponse` func): `ok body`
installs `body` as the new response body and returns nil, `errored`
returns a non-nil error (the reverse proxy then surfaces a 5xx via its
`ErrorHandler`), `panicked` is a Go runtime panic (out-of-range index). -/
inductive RwResult
  | panicked
  | errored (msg : String)
  | ok (body : String)
deriving DecidableEq

/-- The per-media-source loop of `EmbyHandler.ModifyPlaybackInfo`
(emby handler, lines 156-193): query the item (stripping the
`mediasource_` prefix), take `Items[0]` (panic = `none` when empty),
classify, and collect the `jsonChain.Set` operations of the matching
case. -/
def embyCollectOps (queryItem : String → Option ItemsResponse)
    (classify : String → StrmClass)
    (procHTTP : String → MediaSource → List SetOp)
    (procAlist : String → MediaSource → String → String → List SetOp) :
    Nat → List MediaSource → Option (List SetOp)
  | _, [] => some []
  | index, ms :: rest =>
    match queryItem (replaceFirst ms.id "mediasource_") with
    | none => embyCollectOps queryItem classify procHTTP procAlist (index + 1) rest
    | some itemResponse =>
      match itemResponse.items.head? with
      | none => none
      | some item =>
        let bsePath := "MediaSources." ++ toString index ++ "."
        let ops :=
          match classify item.path with
          | .http => procHTTP bsePath ms
          | .alist addr => procAlist bsePath ms addr item.path
          | .unknown => []
        match embyCollectOps queryItem classify procHTTP procAlist (index + 1) rest with
        | none => none
        | some restOps => some (ops ++ restOps)

/-- `EmbyHandler.ModifyPlaybackInfo` (emby handler, lines 135-205).
`parse` stands for `json.Unmarshal` into `emby.PlaybackInfoResponse`;
a `none` reproduces lines 151-154: log a warning and `return err`. -/
def embyModifyPlaybackInfo (parse : String → Option PlaybackInfoResponse)
    (queryItem : String → Option ItemsResponse) (classify : String → StrmClass)
    (procHTTP : String → MediaSource → List SetOp)
    (procAlist : String → MediaSource → String → String → List SetOp)
    (applySets : String → List SetOp → Option String) (body : String) : RwResult :=
  match parse body with
  | none => .errored "解析 emby.PlaybackInfoResponse Json 错误"
  | some playbackInfoResponse =>
    match embyCollectOps queryItem classify procHTTP procAlist 0
        playbackInfoResponse.mediaSources with
    | none => .panicked
    | some ops =>
      match chainResult body ops applySets with
      | none => .errored "操作 emby.PlaybackInfoResponse Json 错误"
      | some newBody => .ok newBody

/-- The per-media-source loop of `JellyfinHandler.ModifyPlaybackInfo`
(jellyfin.go lines 147-182); unlike Emby, the item query uses
`*mediasource.ID` verbatim (no prefix stripping). -/
def jellyfinCollectOps (queryItem : String → Option ItemsResponse)
    (classify : String → StrmClass)
    (procHTTP : String → MediaSource → List SetOp)
    (procAlist : String → MediaSource → String → String → List SetOp) :
    Nat → List MediaSource → Option (List SetOp)
  | _, [] => some []
  | index, ms :: rest =>
    match queryItem ms.id with
    | none => jellyfinCollectOps queryItem classify procHTTP procAlist (index + 1) rest
    | some itemResponse =>
      match itemResponse.items.head? with
      | none => none
      | some item =>
        let bsePath := "MediaSources." ++ toString index ++ "."
        let ops :=
          match classify item.path with
          | .http => procHTTP bsePath ms
          | .alist addr => procAlist bsePath ms addr item.path
          | .unknown => []
        match jellyfinCollectOps queryItem classify procHTTP procAlist (index + 1) rest with
        | none => none
        | some restOps => some (ops ++ restOps)

/-- `JellyfinHandler.ModifyPlaybackInfo` (jellyfin.go lines 126-194). -/
def jellyfinModifyPlaybackInfo (parse : String → Option PlaybackInfoResponse)
    (queryItem : String → Option ItemsResponse) (classify : String → StrmClass)
    (procHTTP : String → MediaSource → List SetOp)
    (procAlist : String → MediaSource → String → String → List SetOp)
    (applySets : String → List SetOp → Option String) (body : String) : RwResult :=
  match parse body with
  | none => .errored "解析 jellyfin.PlaybackInfoResponse JSON 错误"
  | some playbackInfoResponse =>
    match jellyfinCollectOps queryItem classify procHTTP procAlist 0
        playbackInfoResponse.mediaSources with
    | none => .panicked
    | some ops =>
      match chainResult body ops applySets with
      | none => .errored "操作 jellyfin.PlaybackInfoResponse Json 错误"
      | some newBody => .ok newBody

/-! ## Alist STRM result and the FNTV stream rewriter
(internal/handler/strm.go, fntv.go)

Instants are integer seconds since the epoch: `time.Unix(tsInt, 0)`
(strm.go line 149) becomes the integer `tsInt`, `time.Now()` the
parameter `now`, and `int64(time.Since(t).Seconds())` the integer
`now - t`. -/

structure ResolutionInfo where
  width : Nat
  height : Nat
  name : String
deriving DecidableEq

structure TranscodeResourceInfo where
  url : String
  isM3U8 : Bool
  expireAt : Int
  resolution : ResolutionInfo
deriving DecidableEq

structure AlistStrmResult where
  url : String
  fileSize : Int
  transcodeResources : List TranscodeResourceInfo
deriving DecidableEq

/-- The transcode-variant loop of `FNTVHandler.ModifyStream` (fntv.go
lines 172-187): variant `i` of the resource list is written at JSON index
`i+1`, and its `expire_at` field is
`int64(time.Since(resource.expireAt).Seconds())`, i.e. `now - expireAt`. -/
def fntvVariantOps (now : Int) : Nat → List TranscodeResourceInfo → List SetOp
  | _, [] => []
  | i, r :: rest =>
    let basePath := "data.direct_link_qualities." ++ toString (i + 1) ++ "."
    [(basePath ++ "resolution", JsonVal.str ("AlistStrm 直链 - 转码 " ++ r.resolution.name)),
     (basePath ++ "url", JsonVal.str r.url),
     (basePath ++ "is_m3u8", JsonVal.bool r.isM3U8),
     (basePath ++ "expire_at", JsonVal.int (now - r.expireAt))] ++
    fntvVariantOps now (i + 1) rest

/-- The spec's value for the `expire_at` field (§4.6: "expire_at:
seconds-until-expiry", positive while the expiry instant lies in the
future).  Stated from the spec's words, for comparison with the source's
`now - expireAt` above. -/
def specSecondsUntilExpiry (now expireUnix : Int) : Int := expireUnix - now

/-- gjson result types as used by fntv.go (`gjson.Number`,
`gjson.String`, anything else). -/
inductive GType
  | number
  | jstring
  | other
deriving DecidableEq

/-- A gjson `Result`: its type, and the `String()`/`Int()` projections. -/
structure GRes where
  type : GType
  str : String
  intVal : Int
deriving DecidableEq

/-- `FNTVHandler.ModifyStream` (fntv.go lines 95-203).  `get` stands for
`jsonChain.Get` (gjson over the response bytes), `httpResolve` for the
`httpStrmHandler` closure, `alistResolve` for
`alistStrmHandler(content, addr, true)`. -/
def fntvModifyStream (get : String → GRes) (classify : String → StrmClass)
    (httpResolve : String → String → String)
    (alistResolve : String → String → Option AlistStrmResult)
    (applySets : String → List SetOp → Option String)
    (now : Int) (ua : String) (data : String) : RwResult :=
  let finish : List SetOp → RwResult := fun ops =>
    match chainResult data ops applySets with
    | none => .errored "操作 FNTV Stream Json 错误"
    | some newBody => .ok newBody
  let codeRes := get "code"
  if codeRes.type ≠ .number then .ok data
  else if codeRes.intVal ≠ 0 then .ok data
  else
    let filePathRes := get "data.file_stream.path"
    if filePathRes.type ≠ .jstring then .ok data
    else
      match classify filePathRes.str with
      | .http =>
        let urlRes := get "data.direct_link_qualities.0.url"
        if urlRes.type ≠ .jstring then .ok data
        else
          let redirectURL := httpResolve urlRes.str ua
          finish
            [("data.direct_link_qualities.0.resolution", JsonVal.str "HTTPStrm 直链"),
             ("data.direct_link_qualities.0.url", JsonVal.str redirectURL)]
      | .alist addr =>
        let remoteRes := get "data.direct_link_qualities.0.url"
        if remoteRes.type ≠ .jstring then .ok data
        else
          match alistResolve remoteRes.str addr with
          | none => .ok data
          | some res =>
            finish
              ([("data.direct_link_qualities.0.resolution",
                  JsonVal.str "AlistStrm 直链 - 原画"),
                ("data.direct_link_qualities.0.url", JsonVal.str res.url),
                ("data.file_stream.size", JsonVal.int res.fileSize)] ++
               fntvVariantOps now 0 res.transcodeResources)
      | .unknown => finish []

/-! ## Videos handlers (emby handler lines 210-276, jellyfin.go 199-249) -/

/-- What the videos handler does with a request: forward to the upstream
reverse proxy, answer a 302 with the given Location, panic
(out-of-range index), or return without writing a response. -/
inductive VideosOutcome
  | proxied
  | redirect (loc : String)
  | panicked
  | noResponse
deriving DecidableEq

/-- Modelled from the spec: the Emby canonicalization pattern
`constants.EmbyRegexp.Others.VideoRedirectReg` lives in the `constants`
package, absent from src/; per the spec (§4.7) it matches paths of the
shape `/videos/{id}/original.ext`, capturing the id segment.  Go
`FindStringSubmatch` returns, on a match, the full match of the whole
regex followed by the captured group, and the empty list on no match. -/
def splitOnSlash : List Char → List (List Char)
  | [] => [[]]
  | c :: rest =>
    if c = '/' then [] :: splitOnSlash rest
    else
      match splitOnSlash rest with
      | [] => [[c]]
      | seg :: segs => (c :: seg) :: segs

def videoRedirectFind (path : String) : List String :=
  match splitOnSlash path.data with
  | [seg0, seg1, id, last] =>
    if seg0 = [] ∧ seg1 = "videos".data ∧ id ≠ [] ∧
        "original.".data.isPrefixOf last = true ∧ "original.".data.length < last.length then
      [path, String.mk id]
    else []
  | _ => []

/-- The media-source loop of `EmbyHandler.VideosHandler` (emby handler,
lines 249-275).  In the HTTPStrm case a media source whose protocol is
not `emby.HTTP` falls through the switch and the loop continues; a loop
that finds no match returns without writing a response. -/
def embyVideosLoop (kind : StrmClass) (httpResolve : String → String → String)
    (alistResolve : String → String → Option AlistStrmResult)
    (msidStripped ua : String) : List MediaSource → VideosOutcome
  | [] => .noResponse
  | ms :: rest =>
    if replaceFirst ms.id "mediasource_" == msidStripped then
      match kind with
      | .http =>
        if ms.protocol == "Http" then .redirect (httpResolve ms.path ua)
        else embyVideosLoop kind httpResolve alistResolve msidStripped ua rest
      | .alist addr =>
        match alistResolve ms.path addr with
        | none => .proxied
        | some res => .redirect res.url
      | .unknown => .proxied
    else embyVideosLoop kind httpResolve alistResolve msidStripped ua rest

/-- `EmbyHandler.VideosHandler` (emby handler, lines 210-276).  Note line
220: the redirect path is built from `matches[0]` — the full regex match
— not from the captured id. -/
def embyVideosHandler (queryItem : String → Option ItemsResponse)
    (classify : String → StrmClass) (httpResolve : String → String → String)
    (alistResolve : String → String → Option AlistStrmResult)
    (method path mediaSourceId ua : String) : VideosOutcome :=
  if method == "HEAD" then .proxied
  else
    let mres := videoRedirectFind path
    if mres.length == 2 then
      .redirect ("/videos/" ++ mres.headD "" ++ "/stream")
    else
      let msidStripped := replaceFirst mediaSourceId "mediasource_"
      match queryItem msidStripped with
      | none => .proxied
      | some itemResponse =>
        match itemResponse.items.head? with
        | none => .panicked
        | some item =>
          if !(item.path.toLower.endsWith ".strm") then .proxied
          else
            embyVideosLoop (classify item.path) httpResolve alistResolve
              msidStripped ua item.mediaSources

/-- The media-source loop of `JellyfinHandler.VideosHandler` (jellyfin.go
lines 224-248); the comparison uses `*mediasource.ID` verbatim. -/
def jellyfinVideosLoop (kind : StrmClass) (httpResolve : String → String → String)
    (alistResolve : String → String → Option AlistStrmResult)
    (msid ua : String) : List MediaSource → VideosOutcome
  | [] => .noResponse
  | ms :: rest =>
    if ms.id == msid then
      match kind with
      | .http =>
        if ms.protocol == "Http" then .redirect (httpResolve ms.path ua)
        else jellyfinVideosLoop kind httpResolve alistResolve msid ua rest
      | .alist addr =>
        match alistResolve ms.path addr with
        | none => .proxied
        | some res => .redirect res.url
      | .unknown => .proxied
    else jellyfinVideosLoop kind httpResolve alistResolve msid ua rest

/-- `JellyfinHandler.VideosHandler` (jellyfin.go lines 199-249); no
canonicalization pattern, no prefix stripping. -/
def jellyfinVideosHandler (queryItem : String → Option ItemsResponse)
    (classify : String → StrmClass) (httpResolve : String → String → String)
    (alistResolve : String → String → Option AlistStrmResult)
    (method mediaSourceId ua : String) : VideosOutcome :=
  if method == "HEAD" then .proxied
  else
    match queryItem mediaSourceId with
    | none => .proxied
    | some itemResponse =>
      match itemResponse.items.head? with
      | none => .panicked
      | some item =>
        if !(item.path.toLower.endsWith ".strm") then .proxied
        else
          jellyfinVideosLoop (classify item.path) httpResolve alistResolve
            mediaSourceId ua item.mediaSources

/-! ## Token lifecycle (internal/service/alist/alist.go, `getToken`)

`getToken` is embedded as a two-thread interleaving model.  Each thread
executes the statement sequence of the Go function, split at the lock
operations; the shared state holds the token fields and the
`sync.RWMutex` (`readers` count and `writer` flag).  `RLock` proceeds
only when no writer is active; `Lock` only when there is no reader and no
writer.  Time is a step counter: `time.Now()` at a step reads the current
clock.

Go source, lines 89-111:
```
func (client *AlistClient) getToken() (string, error) {
  var tokenDuration = 2*24*time.Hour - 5*time.Minute

  client.token.mutex.RLock()
  if client.token.value != "" && (client.token.expireAt.IsZero() ||
      time.Now().Before(client.token.expireAt)) {
    defer client.token.mutex.RUnlock()
    return client.token.value, nil
  }

  loginData, err := client.authLogin() // still holding the read lock
  client.token.mutex.RUnlock()
  if err != nil { return "", err }

  client.token.mutex.Lock()
  defer client.token.mutex.Unlock()
  client.token.value = loginData.Token
  client.token.expireAt = time.Now().Add(tokenDuration)

  return loginData.Token, nil
}
```
-/

/-- `tokenDuration = 2*24*time.Hour - 5*time.Minute`, in seconds. -/
def tokenDuration : Nat := 2 * 24 * 60 * 60 - 5 * 60

/-- Program counter of one thread inside `getToken`. -/
inductive TokenPC
  | start       -- about to RLock
  | rlocked     -- holding the read lock, about to test validity
  | refreshing  -- validity test failed: executing authLogin, read lock held
  | loggedIn    -- authLogin returned, about to RUnlock
  | wwait       -- read lock released, waiting on Lock
  | winstall    -- holding the write lock, about to install value/expireAt
  | done (ret : String)
deriving DecidableEq

/-- `alistToken` fields: `expireAt = none` is the zero `time.Time`
("never expires"). -/
structure TokenState where
  value : String
  expireAt : Option Nat
deriving DecidableEq

/-- Shared state: token, RW lock, and the step-counter clock. -/
structure TokenShared where
  token : TokenState
  readers : Nat
  writer : Bool
  clock : Nat
deriving DecidableEq

/-- The validity test of line 93: `value != "" && (expireAt.IsZero() ||
now.Before(expireAt))`. -/
def tokenValid (s : TokenShared) : Bool :=
  s.token.value != "" &&
    (match s.token.expireAt with
     | none => true
     | some e => s.clock < e)

/-- One atomic step of a thread at `pc`, with `tok` the token its
`authLogin` call returns.  `none` means the thread is blocked (lock
unavailable) or finished. -/
def stepPC (s : TokenShared) (pc : TokenPC) (tok : String) :
    Option (TokenPC × TokenShared) :=
  match pc with
  | .start =>
    if s.writer then none
    else some (.rlocked, { s with readers := s.readers + 1, clock := s.clock + 1 })
  | .rlocked =>
    if tokenValid s then
      some (.done s.token.value, { s with readers := s.readers - 1, clock := s.clock + 1 })
    else some (.refreshing, { s with clock := s.clock + 1 })
  | .refreshing => some (.loggedIn, { s with clock := s.clock + 1 })
  | .loggedIn => some (.wwait, { s with readers := s.readers - 1, clock := s.clock + 1 })
  | .wwait =>
    if s.readers == 0 ∧ s.writer = false then
      some (.winstall, { s with writer := true, clock := s.clock + 1 })
    else none
  | .winstall =>
    some (.done tok,
      { s with writer := false, clock := s.clock + 1,
               token := ⟨tok, some (s.clock + tokenDuration)⟩ })
  | .done _ => none

/-- Two client goroutines calling `getToken` on one `AlistClient`. -/
structure TokenSys where
  shared : TokenShared
  pc0 : TokenPC
  pc1 : TokenPC
deriving DecidableEq

/-- Scheduler step: run thread 0 (`false`) or thread 1 (`true`); the two
threads' `authLogin` calls return `tok0` / `tok1`. -/
def tokenStep (tok0 tok1 : String) (sys : TokenSys) (t : Bool) : Option TokenSys :=
  match t with
  | true =>
    match stepPC sys.shared sys.pc1 tok1 with
    | none => none
    | some (pc1, sh) => some ⟨sh, sys.pc0, pc1⟩
  | false =>
    match stepPC sys.shared sys.pc0 tok0 with
    | none => none
    | some (pc0, sh) => some ⟨sh, pc0, sys.pc1⟩

/-- Run a schedule (a list of thread choices) from a configuration. -/
def tokenRun (tok0 tok1 : String) : TokenSys → List Bool → Option TokenSys
  | sys, [] => some sys
  | sys, t :: ts =>
    match tokenStep tok0 tok1 sys t with
    | none => none
    | some sys2 => tokenRun tok0 tok1 sys2 ts

/-- Initial state: no token yet (`value = ""`), lock free. -/
def tokenInit : TokenSys :=
  ⟨⟨⟨"", none⟩, 0, false, 0⟩, .start, .start⟩

/-- A thread holds the read guard exactly at these program points. -/
def holdsRead : TokenPC → Bool
  | .rlocked => true
  | .refreshing => true
  | .loggedIn => true
  | _ => false

/-- Invariant tying the `sync.RWMutex` reader count to the program
points that hold the read guard. -/
def readInvariant (sys : TokenSys) : Prop :=
  sys.shared.readers =
    (if holdsRead sys.pc0 then 1 else 0) + (if holdsRead sys.pc1 then 1 else 0)

/-! ## Theorems for the individual claims -/

theorem sortStrings_eq_of_perm {l1 l2 : List String} (h : l1.Perm l2) :
    sortStrings l1 = sortStrings l2 := by
  exact List.eq_of_perm_of_sorted
    (((List.perm_insertionSort _ l1).trans h).trans (List.perm_insertionSort _ l2).symm)
    (List.sorted_insertionSort _ l1) (List.sorted_insertionSort _ l2)

theorem encodeQuery_eq_of_perm {q1 q2 : List (String × String)} (h : q1.Perm q2) :
    encodeQuery q1 = encodeQuery q2 := by
  unfold encodeQuery
  have hkeys : sortStrings ((q1.map (fun p => p.1)).dedup) =
      sortStrings ((q2.map (fun p => p.1)).dedup) :=
    sortStrings_eq_of_perm (h.map (fun p => p.1)).dedup
  have hvals : ∀ k, sortStrings (valuesOf q1 k) = sortStrings (valuesOf q2 k) := by
    intro k
    apply sortStrings_eq_of_perm
    unfold valuesOf
    exact (h.filter (fun p => p.1 == k)).map (fun p => p.2)
  rw [hkeys]
  congr 1
  apply List.map_congr_left
  intro k _
  rw [hvals k]

/-- C9: the cache key computed by the cache middleware is invariant under
reordering of query parameters (and of repeated values), and under the
presence or absence of parameters whose key is in the ignore list
`CacheKeyIgnoreQuery` (api_key, tag, playsessionid, starttimeticks,
x-playback-session-id).  The hypothesis states exactly that the two parsed
query parameter lists agree up to permutation once the ignored keys are
dropped. -/
theorem C9_cacheKey_invariant (path : String) (q1 q2 : List (String × String))
    (h : (q1.filter (fun p => !(CacheKeyIgnoreQuery.contains p.1))).Perm
         (q2.filter (fun p => !(CacheKeyIgnoreQuery.contains p.1)))) :
    getCacheKey path q1 = getCacheKey path q2 := by
  unfold getCacheKey
  rw [encodeQuery_eq_of_perm h]

/-- C9 witness: a reordered query with an extra `api_key` parameter and a
`tag` parameter yields the same cache key. -/
theorem C9_cacheKey_invariant_witness :
    getCacheKey "/emby/Items/54/Images/Primary"
      [("b", "2"), ("a", "1"), ("api_key", "k"), ("a", "0")] =
    getCacheKey "/emby/Items/54/Images/Primary"
      [("a", "0"), ("a", "1"), ("tag", "abc"), ("b", "2")] :=
  C9_cacheKey_invariant _ _ _ (by decide)



/-- C1 counterexample: on an upstream body that is not valid JSON
(`json.Unmarshal` fails, modelled by the parse oracle returning `none` on
the body `"not json"`), `EmbyHandler.ModifyPlaybackInfo` does NOT forward
the original bytes with success — it returns the decode error (emby
handler lines 151-154), so the proxy surfaces a 5xx. -/
theorem C1_invalid_json_counterexample :
    embyModifyPlaybackInfo (fun _ => none) (fun _ => none) (fun _ => .unknown)
      (fun _ _ => []) (fun _ _ _ _ => []) (fun _ _ => none) "not json" =
      .errored "解析 emby.PlaybackInfoResponse Json 错误" ∧
    RwResult.errored "解析 emby.PlaybackInfoResponse Json 错误" ≠
      RwResult.ok "not json" :=
  ⟨rfl, fun h => RwResult.noConfusion h⟩

/-- C1 (amended): when the upstream body fails to unmarshal, the Emby and
Jellyfin PlaybackInfo rewriters return the decode error (the proxy
surfaces a 5xx); only the FNTV stream rewriter degrades, forwarding the
original bytes with success whenever its `code` field is not a JSON
number (which is what gjson reports on a body that is not valid JSON). -/
theorem C1_amended_rewriter_error_handling
    (parse : String → Option PlaybackInfoResponse)
    (queryItem : String → Option ItemsResponse) (classify : String → StrmClass)
    (procHTTP : String → MediaSource → List SetOp)
    (procAlist : String → MediaSource → String → String → List SetOp)
    (applySets : String → List SetOp → Option String)
    (get : String → GRes) (httpResolve : String → String → String)
    (alistResolve : String → String → Option AlistStrmResult)
    (now : Int) (ua body : String)
    (hparse : parse body = none) (hcode : (get "code").type ≠ .number) :
    embyModifyPlaybackInfo parse queryItem classify procHTTP procAlist applySets body =
      .errored "解析 emby.PlaybackInfoResponse Json 错误" ∧
    jellyfinModifyPlaybackInfo parse queryItem classify procHTTP procAlist applySets body =
      .errored "解析 jellyfin.PlaybackInfoResponse JSON 错误" ∧
    fntvModifyStream get classify httpResolve alistResolve applySets now ua body =
      .ok body := by
  refine ⟨?_, ?_, ?_⟩
  · unfold embyModifyPlaybackInfo
    rw [hparse]
  · unfold jellyfinModifyPlaybackInfo
    rw [hparse]
  · unfold fntvModifyStream
    simp only [if_pos hcode]

/-- C1 witness: the amended statement at a concrete non-JSON body. -/
theorem C1_amended_witness :
    embyModifyPlaybackInfo (fun _ => none) (fun _ => none) (fun _ => .unknown)
      (fun _ _ => []) (fun _ _ _ _ => []) (fun _ _ => none) "x" =
      .errored "解析 emby.PlaybackInfoResponse Json 错误" ∧
    jellyfinModifyPlaybackInfo (fun _ => none) (fun _ => none) (fun _ => .unknown)
      (fun _ _ => []) (fun _ _ _ _ => []) (fun _ _ => none) "x" =
      .errored "解析 jellyfin.PlaybackInfoResponse JSON 错误" ∧
    fntvModifyStream (fun _ => ⟨.other, "", 0⟩) (fun _ => .unknown)
      (fun _ _ => "") (fun _ _ => none) (fun _ _ => none) 0 "UA" "x" = .ok "x" :=
  C1_amended_rewriter_error_handling (fun _ => none) (fun _ => none) (fun _ => .unknown)
    (fun _ _ => []) (fun _ _ _ _ => []) (fun _ _ => none) (fun _ => ⟨.other, "", 0⟩)
    (fun _ _ => "") (fun _ _ => none) 0 "UA" "x" rfl (by decide)

/-- C3: when `getFinalURL` fails, the HTTP STRM resolver closure returns
the Go zero value `""` (and records it in the cache) instead of the
original `content` — contradicting both the spec and the function's own
log line "获取最终 URL 失败，使用原始 URL" ("fetch of final URL failed,
using the original URL"). -/
theorem C3_httpStrm_error_returns_empty :
    httpStrmResolve true (some []) (fun _ _ => .error "context deadline exceeded")
      "http://origin.example/vid.mp4" "UA" =
      ("", some [("http://origin.example/vid.mp4", "")]) ∧
    ("" : String) ≠ "http://origin.example/vid.mp4" :=
  ⟨rfl, by decide⟩

/-- C4: the `expire_at` value the FNTV rewriter writes for a transcode
variant is `int64(time.Since(expireAt).Seconds())` = now − expireAt, the
NEGATION of the spec's "seconds until expiry": for a variant whose
`x-oss-expires` instant is 100 s in the future the code writes −100 where
the spec requires +100. -/
theorem C4_expireAt_sign_flipped :
    fntvVariantOps 1000 0
      [⟨"https://oss.example/x.m3u8?x-oss-expires=1100", true, 1100, ⟨1920, 1080, "FHD"⟩⟩] =
      [("data.direct_link_qualities.1.resolution",
          JsonVal.str "AlistStrm 直链 - 转码 FHD"),
       ("data.direct_link_qualities.1.url",
          JsonVal.str "https://oss.example/x.m3u8?x-oss-expires=1100"),
       ("data.direct_link_qualities.1.is_m3u8", JsonVal.bool true),
       ("data.direct_link_qualities.1.expire_at", JsonVal.int (-100))] ∧
    specSecondsUntilExpiry 1000 1100 = 100 ∧
    0 < specSecondsUntilExpiry 1000 1100 ∧
    (∀ now expireUnix : Int, now - expireUnix = -(specSecondsUntilExpiry now expireUnix)) := by
  refine ⟨rfl, rfl, by decide, ?_⟩
  intro now expireUnix
  unfold specSecondsUntilExpiry
  ring

/-- C5 counterexample: an Alist envelope with `code = 200` — a non-zero
application-level code — is accepted by `doRequest` and written to the
per-response cache, while an envelope with `code = 0` is surfaced as an
error; the claim has the sense of the check inverted (`doRequest`
compares against `http.StatusOK`, alist.go line 151). -/
theorem C5_code_check_counterexample :
    doRequest (fun s => if s == "B" then some ⟨200, "ok", (7 : Nat)⟩ else none)
      "key" (some []) false (.ok "") (.ok (200, "B")) true =
      (.ok 7, some [("key", "B")]) ∧
    (200 : Int) ≠ 0 ∧
    doRequest (fun s => if s == "B" then some ⟨0, "zero", (9 : Nat)⟩ else none)
      "key" (some []) false (.ok "") (.ok (200, "B")) true =
      (.error "请求失败，响应状态码: 0, 响应信息: zero", some []) :=
  ⟨rfl, by decide, rfl⟩

/-- C5 (amended): a response whose envelope `code` differs from 200 is
surfaced as an error and never written to the cache; a cacheable response
with `code = 200` succeeds and is cached. -/
theorem C5_amended_code_policy {T : Type} (parse : String → Option (AlistEnvelope T))
    (cacheKey : String) (cache : Option (List (String × String)))
    (needAuth : Bool) (tokenRes : Except String String) (status : Nat)
    (data : String) (env : AlistEnvelope T) (setOk : Bool)
    (hmiss : doRequestCacheHit parse cacheKey cache = none)
    (htok : ∃ tk, (if needAuth then tokenRes else Except.ok "") = Except.ok tk)
    (hparse : parse data = some env) :
    (env.code ≠ 200 →
      doRequest parse cacheKey cache needAuth tokenRes (.ok (status, data)) setOk =
        (.error ("请求失败，响应状态码: " ++ toString env.code ++
          ", 响应信息: " ++ env.message), cache)) ∧
    (env.code = 200 → ∀ c, cache = some c → cacheKey ≠ "" → setOk = true →
      doRequest parse cacheKey cache needAuth tokenRes (.ok (status, data)) setOk =
        (.ok env.data, some ((cacheKey, data) :: c))) := by
  obtain ⟨tk, htk⟩ := htok
  constructor
  · intro hcode
    unfold doRequest
    rw [hmiss, htk]
    dsimp only
    rw [hparse]
    dsimp only
    rw [if_pos hcode]
  · intro hcode c hc hkey hset
    unfold doRequest
    rw [hmiss, htk]
    dsimp only
    rw [hparse]
    dsimp only
    rw [if_neg (by simp [hcode]), if_pos hkey, hc]
    dsimp only
    rw [if_pos hset]

/-- C5 witness: the amended statement at a concrete cacheable request. -/
theorem C5_amended_witness :
    doRequest (fun s => if s == "B2" then some ⟨200, "ok", (3 : Nat)⟩ else none)
      "k2" (some []) false (.error "unused") (.ok (200, "B2")) true =
      (.ok 3, some [("k2", "B2")]) :=
  (C5_amended_code_policy (fun s => if s == "B2" then some ⟨200, "ok", (3 : Nat)⟩ else none)
      "k2" (some []) false (.error "unused") 200 "B2" ⟨200, "ok", 3⟩ true
      rfl ⟨"", rfl⟩ rfl).2 rfl [] rfl (by decide) rfl

theorem whitelistHeaders_keys (hs : List (String × String)) :
    ∀ p ∈ whitelistHeaders hs,
      p.1 = "Content-Type" ∨ p.1 = "Content-Length" ∨ p.1 = "Cache-Control" ∨
      p.1 = "ETag" ∨ p.1 = "Content-Disposition" := by
  intro p hp
  simp only [whitelistHeaders, List.mem_append] at hp
  rcases hp with ((((h | h) | h) | h) | h) <;>
    · split at h <;> simp_all

/-- C6: the cache middleware stores a response exactly when the request
method is GET, the path matches the bound regex, the completed response
status lies in [200, 300) and the captured body is at most 256 KiB; the
stored entry carries only the whitelisted headers; and for a non-GET
method (or a non-matching path) the cache is neither consulted nor
populated. -/
theorem C6_cacheMiddleware_policy (regMatch : String → Bool)
    (cache : List (String × CacheData)) (method path : String)
    (query : List (String × String)) (st : Nat)
    (hs : List (String × String)) (body : String) :
    (method ≠ "GET" →
      cacheMiddleware regMatch cache method path query st hs body = ⟨false, false, none⟩) ∧
    (regMatch path = false →
      cacheMiddleware regMatch cache method path query st hs body = ⟨false, false, none⟩) ∧
    (∀ e, (cacheMiddleware regMatch cache method path query st hs body).stored = some e →
      method = "GET" ∧ regMatch path = true ∧ 200 ≤ st ∧ st < 300 ∧
      body.utf8ByteSize ≤ maxCacheSize ∧ e = ⟨st, whitelistHeaders hs, body⟩ ∧
      ∀ p ∈ e.header,
        p.1 = "Content-Type" ∨ p.1 = "Content-Length" ∨ p.1 = "Cache-Control" ∨
        p.1 = "ETag" ∨ p.1 = "Content-Disposition") ∧
    (method = "GET" → regMatch path = true →
      lookupCache cache (getCacheKey path query) = none →
      200 ≤ st → st < 300 → body.utf8ByteSize ≤ maxCacheSize →
      cacheMiddleware regMatch cache method path query st hs body =
        ⟨true, false, some ⟨st, whitelistHeaders hs, body⟩⟩) := by
  refine ⟨?_, ?_, ?_, ?_⟩
  · intro h
    unfold cacheMiddleware
    rw [if_pos (Or.inl h)]
  · intro h
    unfold cacheMiddleware
    rw [if_pos (Or.inr h)]
  · intro e he
    unfold cacheMiddleware at he
    by_cases hguard : method ≠ "GET" ∨ regMatch path = false
    · rw [if_pos hguard] at he
      exact absurd he (by simp)
    · push_neg at hguard
      obtain ⟨hm, hr⟩ := hguard
      rw [if_neg (by simp [hm, hr])] at he
      unfold getCacheBaseFunc at he
      rcases hl : lookupCache cache (getCacheKey path query) with _ | entry
      · rw [hl] at he
        dsimp only at he
        by_cases h2xx : 200 ≤ st ∧ st < 300
        · rw [if_pos h2xx] at he
          by_cases hbig : maxCacheSize < body.utf8ByteSize
          · rw [if_pos hbig] at he
            exact absurd he (by simp)
          · rw [if_neg hbig] at he
            simp only [Option.some.injEq] at he
            refine ⟨hm, Bool.not_eq_false _ ▸ hr, h2xx.1, h2xx.2, le_of_not_lt hbig,
              he.symm, ?_⟩
            rw [← he]
            exact whitelistHeaders_keys hs
        · rw [if_neg h2xx] at he
          exact absurd he (by simp)
      · rw [hl] at he
        exact absurd he (by simp)
  · intro hm hr hl h2 h3 hsize
    unfold cacheMiddleware
    rw [if_neg (by simp [hm, hr])]
    unfold getCacheBaseFunc
    rw [hl]
    dsimp only
    rw [if_pos ⟨h2, h3⟩, if_neg (not_lt.mpr hsize)]

/-- C6 witness: a GET on a matching path, missing from the cache, with a
200 response and a tiny body, is stored with the whitelisted headers. -/
theorem C6_cacheMiddleware_policy_witness :
    cacheMiddleware (fun _ => true) [] "GET" "/emby/Items/54/Images/Primary" [] 200
      [("Content-Type", "image/jpeg"), ("X-Debug", "z")] "JPEGDATA" =
      ⟨true, false, some ⟨200,
        whitelistHeaders [("Content-Type", "image/jpeg"), ("X-Debug", "z")], "JPEGDATA"⟩⟩ :=
  (C6_cacheMiddleware_policy (fun _ => true) [] "GET" "/emby/Items/54/Images/Primary" []
      200 [("Content-Type", "image/jpeg"), ("X-Debug", "z")] "JPEGDATA").2.2.2
    rfl rfl rfl (by decide) (by decide) (by decide)

/-- C7: for a GET whose path matches the canonicalization pattern
`/videos/{id}/original.ext`, the Emby videos handler builds its 302
Location from `matches[0]` — the full regex match — rather than from the
captured id, so `/videos/42/original.mp4` is redirected to
`/videos//videos/42/original.mp4/stream` instead of the canonical
`/videos/42/stream`. -/
theorem C7_videos_redirect_full_match :
    embyVideosHandler (fun _ => none) (fun _ => .unknown) (fun _ _ => "")
      (fun _ _ => none) "GET" "/videos/42/original.mp4" "" "UA" =
      .redirect "/videos//videos/42/original.mp4/stream" ∧
    VideosOutcome.redirect "/videos//videos/42/original.mp4/stream" ≠
      VideosOutcome.redirect "/videos/42/stream" :=
  ⟨by decide, by decide⟩

theorem embyCollectOps_unknown (queryItem : String → Option ItemsResponse)
    (classify : String → StrmClass) (procHTTP : String → MediaSource → List SetOp)
    (procAlist : String → MediaSource → String → String → List SetOp) :
    ∀ (i : Nat) (srcs : List MediaSource),
      (∀ ms ∈ srcs, ∀ resp, queryItem (replaceFirst ms.id "mediasource_") = some resp →
        ∃ item, resp.items.head? = some item ∧ classify item.path = .unknown) →
      embyCollectOps queryItem classify procHTTP procAlist i srcs = some [] := by
  intro i srcs
  induction srcs generalizing i with
  | nil => intro _; rfl
  | cons ms rest ih =>
    intro h
    unfold embyCollectOps
    cases hq : queryItem (replaceFirst ms.id "mediasource_") with
    | none => exact ih (i + 1) (fun m hm => h m (List.mem_cons_of_mem _ hm))
    | some resp =>
      obtain ⟨item, hhead, hcls⟩ := h ms (List.mem_cons_self _ _) resp hq
      dsimp only
      rw [hhead]
      dsimp only
      rw [hcls, ih (i + 1) (fun m hm => h m (List.mem_cons_of_mem _ hm))]
      simp

theorem jellyfinCollectOps_unknown (queryItem : String → Option ItemsResponse)
    (classify : String → StrmClass) (procHTTP : String → MediaSource → List SetOp)
    (procAlist : String → MediaSource → String → String → List SetOp) :
    ∀ (i : Nat) (srcs : List MediaSource),
      (∀ ms ∈ srcs, ∀ resp, queryItem ms.id = some resp →
        ∃ item, resp.items.head? = some item ∧ classify item.path = .unknown) →
      jellyfinCollectOps queryItem classify procHTTP procAlist i srcs = some [] := by
  intro i srcs
  induction srcs generalizing i with
  | nil => intro _; rfl
  | cons ms rest ih =>
    intro h
    unfold jellyfinCollectOps
    cases hq : queryItem ms.id with
    | none => exact ih (i + 1) (fun m hm => h m (List.mem_cons_of_mem _ hm))
    | some resp =>
      obtain ⟨item, hhead, hcls⟩ := h ms (List.mem_cons_self _ _) resp hq
      dsimp only
      rw [hhead]
      dsimp only
      rw [hcls, ih (i + 1) (fun m hm => h m (List.mem_cons_of_mem _ hm))]
      simp

/-- C8: when every media source's item path is classified as
`StrmKind = Unknown`, the Emby and Jellyfin PlaybackInfo rewriters emit
no `jsonChain.Set` operation, so the produced body bytes equal the bytes
received from upstream, for every JSON-editor behaviour `applySets`. -/
theorem C8_unknown_identity (parse : String → Option PlaybackInfoResponse)
    (queryItem : String → Option ItemsResponse) (classify : String → StrmClass)
    (procHTTP : String → MediaSource → List SetOp)
    (procAlist : String → MediaSource → String → String → List SetOp)
    (applySets : String → List SetOp → Option String) (body : String)
    (pir : PlaybackInfoResponse) (hparse : parse body = some pir)
    (hUe : ∀ ms ∈ pir.mediaSources, ∀ resp,
      queryItem (replaceFirst ms.id "mediasource_") = some resp →
      ∃ item, resp.items.head? = some item ∧ classify item.path = .unknown)
    (hUj : ∀ ms ∈ pir.mediaSources, ∀ resp, queryItem ms.id = some resp →
      ∃ item, resp.items.head? = some item ∧ classify item.path = .unknown) :
    embyModifyPlaybackInfo parse queryItem classify procHTTP procAlist applySets body =
      .ok body ∧
    jellyfinModifyPlaybackInfo parse queryItem classify procHTTP procAlist applySets body =
      .ok body := by
  constructor
  · unfold embyModifyPlaybackInfo
    rw [hparse]
    dsimp only
    rw [embyCollectOps_unknown queryItem classify procHTTP procAlist 0 pir.mediaSources hUe]
    rfl
  · unfold jellyfinModifyPlaybackInfo
    rw [hparse]
    dsimp only
    rw [jellyfinCollectOps_unknown queryItem classify procHTTP procAlist 0 pir.mediaSources hUj]
    rfl

/-- C8 witness: a concrete PlaybackInfo body with one media source whose
item is classified Unknown passes through both rewriters unchanged. -/
theorem C8_unknown_identity_witness :
    embyModifyPlaybackInfo
      (fun b => if b == "PBI" then some ⟨[⟨"mediasource_1", "1", "/m.strm", "File", 0⟩]⟩ else none)
      (fun _ => some ⟨[⟨"/library/movie.mkv", []⟩]⟩) (fun _ => .unknown)
      (fun _ _ => [("x", JsonVal.int 1)]) (fun _ _ _ _ => [("y", JsonVal.int 2)])
      (fun _ _ => none) "PBI" = .ok "PBI" ∧
    jellyfinModifyPlaybackInfo
      (fun b => if b == "PBI" then some ⟨[⟨"mediasource_1", "1", "/m.strm", "File", 0⟩]⟩ else none)
      (fun _ => some ⟨[⟨"/library/movie.mkv", []⟩]⟩) (fun _ => .unknown)
      (fun _ _ => [("x", JsonVal.int 1)]) (fun _ _ _ _ => [("y", JsonVal.int 2)])
      (fun _ _ => none) "PBI" = .ok "PBI" :=
  C8_unknown_identity
    (fun b => if b == "PBI" then some ⟨[⟨"mediasource_1", "1", "/m.strm", "File", 0⟩]⟩ else none)
    (fun _ => some ⟨[⟨"/library/movie.mkv", []⟩]⟩) (fun _ => .unknown)
    (fun _ _ => [("x", JsonVal.int 1)]) (fun _ _ _ _ => [("y", JsonVal.int 2)])
    (fun _ _ => none) "PBI" ⟨[⟨"mediasource_1", "1", "/m.strm", "File", 0⟩]⟩ rfl
    (by
      intro ms _ resp hq
      cases hq
      exact ⟨_, rfl, rfl⟩)
    (by
      intro ms _ resp hq
      cases hq
      exact ⟨_, rfl, rfl⟩)

theorem embyCollectOps_ne_none (queryItem : String → Option ItemsResponse)
    (classify : String → StrmClass) (procHTTP : String → MediaSource → List SetOp)
    (procAlist : String → MediaSource → String → String → List SetOp)
    (hq : ∀ id resp, queryItem id = some resp → resp.items ≠ []) :
    ∀ (i : Nat) (srcs : List MediaSource),
      embyCollectOps queryItem classify procHTTP procAlist i srcs ≠ none := by
  intro i srcs
  induction srcs generalizing i with
  | nil => simp [embyCollectOps]
  | cons ms rest ih =>
    unfold embyCollectOps
    cases hqq : queryItem (replaceFirst ms.id "mediasource_") with
    | none => exact ih (i + 1)
    | some resp =>
      cases hhead : resp.items.head? with
      | none =>
        exact absurd (List.head?_eq_none_iff.mp hhead) (hq _ _ hqq)
      | some item =>
        cases hrec : embyCollectOps queryItem classify procHTTP procAlist (i + 1) rest with
        | none => exact absurd hrec (ih (i + 1))
        | some restOps => simp [hhead, hrec]

theorem jellyfinCollectOps_ne_none (queryItem : String → Option ItemsResponse)
    (classify : String → StrmClass) (procHTTP : String → MediaSource → List SetOp)
    (procAlist : String → MediaSource → String → String → List SetOp)
    (hq : ∀ id resp, queryItem id = some resp → resp.items ≠ []) :
    ∀ (i : Nat) (srcs : List MediaSource),
      jellyfinCollectOps queryItem classify procHTTP procAlist i srcs ≠ none := by
  intro i srcs
  induction srcs generalizing i with
  | nil => simp [jellyfinCollectOps]
  | cons ms rest ih =>
    unfold jellyfinCollectOps
    cases hqq : queryItem ms.id with
    | none => exact ih (i + 1)
    | some resp =>
      cases hhead : resp.items.head? with
      | none =>
        exact absurd (List.head?_eq_none_iff.mp hhead) (hq _ _ hqq)
      | some item =>
        cases hrec : jellyfinCollectOps queryItem classify procHTTP procAlist (i + 1) rest with
        | none => exact absurd hrec (ih (i + 1))
        | some restOps => simp [hhead, hrec]

theorem embyVideosLoop_ne_panicked (kind : StrmClass)
    (httpResolve : String → String → String)
    (alistResolve : String → String → Option AlistStrmResult)
    (msidStripped ua : String) (srcs : List MediaSource) :
    embyVideosLoop kind httpResolve alistResolve msidStripped ua srcs ≠ .panicked := by
  induction srcs with
  | nil => simp [embyVideosLoop]
  | cons ms rest ih =>
    unfold embyVideosLoop
    split
    · cases kind with
      | http =>
        dsimp only
        split
        · simp
        · exact ih
      | alist addr =>
        dsimp only
        cases alistResolve ms.path addr <;> simp
      | unknown => simp
    · exact ih

theorem jellyfinVideosLoop_ne_panicked (kind : StrmClass)
    (httpResolve : String → String → String)
    (alistResolve : String → String → Option AlistStrmResult)
    (msid ua : String) (srcs : List MediaSource) :
    jellyfinVideosLoop kind httpResolve alistResolve msid ua srcs ≠ .panicked := by
  induction srcs with
  | nil => simp [jellyfinVideosLoop]
  | cons ms rest ih =>
    unfold jellyfinVideosLoop
    split
    · cases kind with
      | http =>
        dsimp only
        split
        · simp
        · exact ih
      | alist addr =>
        dsimp only
        cases alistResolve ms.path addr <;> simp
      | unknown => simp
    · exact ih

set_option maxHeartbeats 1000000 in
/-- C10: every successful `ItemsServiceQueryItem` response is indexed as
`Items[0]` with no non-emptiness check, in both PlaybackInfo rewriters
and both videos handlers: under the precondition that every upstream
`Items` list is non-empty, none of the four code paths panics; and for
the concrete upstream response `Items: []` each of the four panics with
an out-of-range index. -/
theorem C10_items_zero_indexing (parse : String → Option PlaybackInfoResponse)
    (queryItem : String → Option ItemsResponse) (classify : String → StrmClass)
    (procHTTP : String → MediaSource → List SetOp)
    (procAlist : String → MediaSource → String → String → List SetOp)
    (applySets : String → List SetOp → Option String)
    (httpResolve : String → String → String)
    (alistResolve : String → String → Option AlistStrmResult)
    (body method path mediaSourceId ua : String)
    (hq : ∀ id resp, queryItem id = some resp → resp.items ≠ []) :
    (embyModifyPlaybackInfo parse queryItem classify procHTTP procAlist applySets body ≠
      .panicked) ∧
    (jellyfinModifyPlaybackInfo parse queryItem classify procHTTP procAlist applySets body ≠
      .panicked) ∧
    (embyVideosHandler queryItem classify httpResolve alistResolve
      method path mediaSourceId ua ≠ .panicked) ∧
    (jellyfinVideosHandler queryItem classify httpResolve alistResolve
      method mediaSourceId ua ≠ .panicked) ∧
    (embyModifyPlaybackInfo
      (fun _ => some ⟨[⟨"1", "1", "/m.strm", "Http", 0⟩]⟩)
      (fun _ => some ⟨[]⟩) classify procHTTP procAlist applySets body = .panicked) ∧
    (jellyfinModifyPlaybackInfo
      (fun _ => some ⟨[⟨"1", "1", "/m.strm", "Http", 0⟩]⟩)
      (fun _ => some ⟨[]⟩) classify procHTTP procAlist applySets body = .panicked) ∧
    (embyVideosHandler (fun _ => some ⟨[]⟩) classify httpResolve alistResolve
      "GET" "/videos/42/stream" "42" ua = .panicked) ∧
    (jellyfinVideosHandler (fun _ => some ⟨[]⟩) classify httpResolve alistResolve
      "GET" "42" ua = .panicked) := by
  refine ⟨?_, ?_, ?_, ?_, ?_, ?_, ?_, ?_⟩
  · unfold embyModifyPlaybackInfo
    cases parse body with
    | none => simp
    | some pir =>
      dsimp only
      cases hc : embyCollectOps queryItem classify procHTTP procAlist 0 pir.mediaSources with
      | none => exact absurd hc (embyCollectOps_ne_none _ _ _ _ hq _ _)
      | some ops =>
        dsimp only
        cases chainResult body ops applySets <;> simp
  · unfold jellyfinModifyPlaybackInfo
    cases parse body with
    | none => simp
    | some pir =>
      dsimp only
      cases hc : jellyfinCollectOps queryItem classify procHTTP procAlist 0 pir.mediaSources with
      | none => exact absurd hc (jellyfinCollectOps_ne_none _ _ _ _ hq _ _)
      | some ops =>
        dsimp only
        cases chainResult body ops applySets <;> simp
  · unfold embyVideosHandler
    split
    · simp
    · dsimp only
      split
      · simp
      · cases hqq : queryItem (replaceFirst mediaSourceId "mediasource_") with
        | none => simp
        | some resp =>
          dsimp only
          cases hhead : resp.items.head? with
          | none => exact absurd (List.head?_eq_none_iff.mp hhead) (hq _ _ hqq)
          | some item =>
            dsimp only
            split
            · simp
            · exact embyVideosLoop_ne_panicked _ _ _ _ _ _
  · unfold jellyfinVideosHandler
    split
    · simp
    · cases hqq : queryItem mediaSourceId with
      | none => simp
      | some resp =>
        dsimp only
        cases hhead : resp.items.head? with
        | none => exact absurd (List.head?_eq_none_iff.mp hhead) (hq _ _ hqq)
        | some item =>
          dsimp only
          split
          · simp
          · exact jellyfinVideosLoop_ne_panicked _ _ _ _ _ _
  · rfl
  · rfl
  · rfl
  · rfl

/-- C10 witness: the no-panic half at concrete oracles whose every
response carries a non-empty `Items`, plus the concrete panics. -/
theorem C10_items_zero_indexing_witness :
    (embyModifyPlaybackInfo (fun _ => none) (fun _ => some ⟨[⟨"/f.mkv", []⟩]⟩)
      (fun _ => .unknown) (fun _ _ => []) (fun _ _ _ _ => []) (fun _ _ => none) "B" ≠
      .panicked) ∧
    (jellyfinModifyPlaybackInfo (fun _ => none) (fun _ => some ⟨[⟨"/f.mkv", []⟩]⟩)
      (fun _ => .unknown) (fun _ _ => []) (fun _ _ _ _ => []) (fun _ _ => none) "B" ≠
      .panicked) ∧
    (embyVideosHandler (fun _ => some ⟨[⟨"/f.mkv", []⟩]⟩) (fun _ => .unknown)
      (fun _ _ => "") (fun _ _ => none) "GET" "/videos/42/stream" "42" "UA" ≠ .panicked) ∧
    (jellyfinVideosHandler (fun _ => some ⟨[⟨"/f.mkv", []⟩]⟩) (fun _ => .unknown)
      (fun _ _ => "") (fun _ _ => none) "GET" "42" "UA" ≠ .panicked) ∧
    (embyModifyPlaybackInfo (fun _ => some ⟨[⟨"1", "1", "/m.strm", "Http", 0⟩]⟩)
      (fun _ => some ⟨[]⟩) (fun _ => .unknown) (fun _ _ => []) (fun _ _ _ _ => [])
      (fun _ _ => none) "B" = .panicked) ∧
    (jellyfinModifyPlaybackInfo (fun _ => some ⟨[⟨"1", "1", "/m.strm", "Http", 0⟩]⟩)
      (fun _ => some ⟨[]⟩) (fun _ => .unknown) (fun _ _ => []) (fun _ _ _ _ => [])
      (fun _ _ => none) "B" = .panicked) ∧
    (embyVideosHandler (fun _ => some ⟨[]⟩) (fun _ => .unknown) (fun _ _ => "")
      (fun _ _ => none) "GET" "/videos/42/stream" "42" "UA" = .panicked) ∧
    (jellyfinVideosHandler (fun _ => some ⟨[]⟩) (fun _ => .unknown) (fun _ _ => "")
      (fun _ _ => none) "GET" "42" "UA" = .panicked) :=
  C10_items_zero_indexing (fun _ => none) (fun _ => some ⟨[⟨"/f.mkv", []⟩]⟩)
    (fun _ => .unknown) (fun _ _ => []) (fun _ _ _ _ => []) (fun _ _ => none)
    (fun _ _ => "") (fun _ _ => none) "B" "GET" "/videos/42/stream" "42" "UA"
    (by
      intro id resp h
      cases h
      simp)

/-- C2 counterexample: two goroutines calling `getToken` on one client can
both be inside `authLogin` at once (`getToken` refreshes while holding
only the READ guard), so more than one token refresh can be in flight;
and, continuing the same interleaving, both threads then install their
freshly fetched tokens one after the other — the second install happens
with no re-check although a valid token is already present. -/
theorem C2_singleflight_counterexample :
    (tokenRun "A" "B" tokenInit [false, false, true, true]).map
        (fun s => (s.pc0, s.pc1)) =
      some (.refreshing, .refreshing) ∧
    (tokenRun "A" "B" tokenInit
        [false, false, true, true, false, false, true, true,
         false, false, true, true]).map
        (fun s => (s.pc0, s.pc1, s.shared.token.value, s.shared.token.expireAt)) =
      some (.done "A", .done "B", "B", some (11 + tokenDuration)) :=
  ⟨rfl, rfl⟩

theorem stepPC_read_count (sh : TokenShared) (pc pc2 : TokenPC) (tok : String)
    (sh2 : TokenShared) (other : Nat)
    (h : stepPC sh pc tok = some (pc2, sh2))
    (hinv : sh.readers = (if holdsRead pc then 1 else 0) + other) :
    sh2.readers = (if holdsRead pc2 then 1 else 0) + other := by
  cases pc <;> simp only [stepPC] at h
  case start =>
    split at h
    · exact absurd h (by simp)
    · cases h
      simp only [holdsRead] at hinv ⊢
      simp at hinv ⊢
      omega
  case rlocked =>
    split at h <;>
      · cases h
        simp only [holdsRead] at hinv ⊢
        simp at hinv ⊢
        omega
  case refreshing =>
    cases h
    simp only [holdsRead] at hinv ⊢
    simp at hinv ⊢
    omega
  case loggedIn =>
    cases h
    simp only [holdsRead] at hinv ⊢
    simp at hinv ⊢
    omega
  case wwait =>
    split at h
    · cases h
      simp only [holdsRead] at hinv ⊢
      simp at hinv ⊢
      omega
    · exact absurd h (by simp)
  case winstall =>
    cases h
    simp only [holdsRead] at hinv ⊢
    simp at hinv ⊢
    omega
  case done => exact absurd h (by simp)

theorem tokenStep_readInvariant (tok0 tok1 : String) (sys sys2 : TokenSys) (t : Bool)
    (hinv : readInvariant sys) (hstep : tokenStep tok0 tok1 sys t = some sys2) :
    readInvariant sys2 := by
  obtain ⟨sh, pc0, pc1⟩ := sys
  unfold readInvariant at hinv ⊢
  cases t <;> simp only [tokenStep] at hstep
  · cases hs : stepPC sh pc0 tok0 with
    | none =>
      rw [hs] at hstep
      exact absurd hstep (by simp)
    | some res =>
      obtain ⟨pc0n, shn⟩ := res
      rw [hs] at hstep
      cases hstep
      exact stepPC_read_count sh pc0 pc0n tok0 shn _ hs hinv
  · cases hs : stepPC sh pc1 tok1 with
    | none =>
      rw [hs] at hstep
      exact absurd hstep (by simp)
    | some res =>
      obtain ⟨pc1n, shn⟩ := res
      rw [hs] at hstep
      cases hstep
      have hinv2 : sh.readers =
          (if holdsRead pc1 then 1 else 0) + (if holdsRead pc0 then 1 else 0) := by
        simp only at hinv
        omega
      have hres := stepPC_read_count sh pc1 pc1n tok1 shn _ hs hinv2
      simp only at hres ⊢
      omega

theorem tokenRun_readInvariant (tok0 tok1 : String) (sched : List Bool) :
    ∀ (sys final : TokenSys), readInvariant sys →
      tokenRun tok0 tok1 sys sched = some final → readInvariant final := by
  induction sched with
  | nil =>
    intro sys final h hr
    unfold tokenRun at hr
    cases hr
    exact h
  | cons t ts ih =>
    intro sys final h hr
    unfold tokenRun at hr
    cases hs : tokenStep tok0 tok1 sys t with
    | none =>
      rw [hs] at hr
      exact absurd hr (by simp)
    | some sys2 =>
      rw [hs] at hr
      exact ih sys2 final (tokenStep_readInvariant tok0 tok1 sys sys2 t h hs) hr

/-- C2 (amended): `getToken` refreshes by calling `authLogin` while still
holding the READ guard (a thread at the refreshing point accounts for a
held read lock, so concurrent refreshes are possible), and installs the
fetched token under the write guard with no re-check; on a successful
refresh the installed expiry is `now + 2 days − 5 minutes`. -/
theorem C2_amended_token_refresh (tok0 tok1 : String) (sched : List Bool)
    (final : TokenSys)
    (hrun : tokenRun tok0 tok1 tokenInit sched = some final) :
    (final.pc0 = .refreshing → 1 ≤ final.shared.readers) ∧
    (final.pc1 = .refreshing → 1 ≤ final.shared.readers) ∧
    (∀ (s : TokenShared) (tok : String), stepPC s .winstall tok =
      some (.done tok, { s with
                           writer := false, clock := s.clock + 1,
                           token := ⟨tok, some (s.clock + tokenDuration)⟩ })) ∧
    tokenDuration = 2 * 24 * 60 * 60 - 5 * 60 := by
  have hinv : readInvariant final :=
    tokenRun_readInvariant tok0 tok1 sched tokenInit final
      (by simp [readInvariant, tokenInit, holdsRead]) hrun
  refine ⟨?_, ?_, fun s tok => rfl, rfl⟩
  · intro h
    unfold readInvariant at hinv
    rw [h] at hinv
    simp [holdsRead] at hinv
    omega
  · intro h
    unfold readInvariant at hinv
    rw [h] at hinv
    simp [holdsRead] at hinv
    omega

/-- C2 witness: the amended statement after the two-step schedule that
leaves thread 0 refreshing while holding the read lock. -/
theorem C2_amended_token_refresh_witness :
    ((⟨⟨⟨"", none⟩, 1, false, 2⟩, .refreshing, .start⟩ : TokenSys).pc0 = .refreshing →
      1 ≤ (⟨⟨⟨"", none⟩, 1, false, 2⟩, .refreshing, .start⟩ : TokenSys).shared.readers) ∧
    ((⟨⟨⟨"", none⟩, 1, false, 2⟩, .refreshing, .start⟩ : TokenSys).pc1 = .refreshing →
      1 ≤ (⟨⟨⟨"", none⟩, 1, false, 2⟩, .refreshing, .start⟩ : TokenSys).shared.readers) ∧
    (∀ (s : TokenShared) (tok : String), stepPC s .winstall tok =
      some (.done tok, { s with
                           writer := false, clock := s.clock + 1,
                           token := ⟨tok, some (s.clock + tokenDuration)⟩ })) ∧
    tokenDuration = 2 * 24 * 60 * 60 - 5 * 60 :=
  C2_amended_token_refresh "A" "B" [false, false]
    ⟨⟨⟨"", none⟩, 1, false, 2⟩, .refreshing, .start⟩ rfl

end MediaWarp
